import Mathlib

/-!
Shallow embedding of the sp1 recursive-verification program builder
(`recursion/program/src/reduce.rs`) and its commitment-scheme config
materializer (`const_fri_config`), together with theorems settling the
frozen claims about it.

Modelling conventions:
* The BabyBear field (p3_baby_bear) is `ZMod 2013265921`.
* A duplex-sponge transcript (`DuplexChallenger` / `DuplexChallengerVariable`)
  is abstracted by the sequence of field elements absorbed into it, in order.
  `observe` appends one element; a fresh challenger is the empty sequence;
  forking (`as_clone` / the `clone` helper) copies the value.  Equality of
  absorbed sequences is a sound (finer-grained) abstraction of equality of
  sponge states, and every claim about transcripts here is phrased in terms
  of absorption order.
* The builder DSL's `builder.range(0, n).for_each` loop is a left fold over
  the list of per-index loop items; `builder.get(&arr, i)` on witness arrays
  is `List.getD` (with an explicit default for the out-of-range case the
  circuit leaves unconstrained).
* The external `StarkVerifier::verify_shard` primitive is opaque: the
  embedding records, for each invocation, the exact arguments the program
  passes to it (a `VerifyCall` trace entry).  The primitive mutates only the
  forked challenger handed to it, which the program discards, so recording
  the entry state is faithful.
-/

/-- The BabyBear prime 15 * 2^27 + 1, the base field `Val` of the program. -/
def babyBearP : Nat := 2013265921

/-- The base field `Val = BabyBear` of `reduce.rs`. -/
abbrev F := ZMod babyBearP

/-- `sp1_recursion_core::runtime::DIGEST_SIZE`: the width of a commitment
digest in field elements. -/
def DIGEST_SIZE : Nat := 8

/-- `Val::TWO_ADICITY` for BabyBear (p3_baby_bear): 2^27 divides p - 1. -/
def TWO_ADICITY : Nat := 27

/-- The main-trace commitment carried by a shard proof
(`proof.commitment.main_commit`), a digest of `DIGEST_SIZE` field elements. -/
structure Commitment where
  main_commit : Fin DIGEST_SIZE → F

/-- A shard proof as the reduce program reads it: its main-trace commitment
and its public-values vector.  The opening data is opaque to the controller
and omitted. -/
structure ShardProof where
  commitment : Commitment
  public_values : List F

/-- A verifying key: a commitment digest over the machine's preprocessed
columns (`vk.commitment`). -/
structure VerifyingKey where
  commitment : Fin DIGEST_SIZE → F

/-- `TwoAdicMultiplicativeCoset` as used by the program: a domain descriptor
with a log-size and a shift. -/
structure TwoAdicMultiplicativeCoset where
  log_n : Nat
  shift : F
deriving DecidableEq

/-- A duplex-sponge transcript, abstracted by the ordered sequence of field
elements absorbed into it. -/
abbrev DuplexChallenger := List F

/-- `DuplexChallengerVariable::new`: a fresh transcript. -/
def newChallenger : DuplexChallenger := []

/-- `challenger.observe(builder, element)`: absorb one field element. -/
def observe (c : DuplexChallenger) (x : F) : DuplexChallenger := c ++ [x]

/-- Absorb a list of field elements in order (a `for` loop of `observe`s). -/
def observeMany (c : DuplexChallenger) (xs : List F) : DuplexChallenger :=
  xs.foldl observe c

/-- Absorb a commitment digest element by element in index order
(`for j in 0..DIGEST_SIZE { observe(get(digest, j)) }`). -/
def observeDigest (c : DuplexChallenger) (d : Fin DIGEST_SIZE → F) : DuplexChallenger :=
  observeMany c (List.ofFn d)

/-- The two machine descriptions the program verifies against:
`RiscvAir::machine` (base) and `RecursionAir::machine` (recursion). -/
inductive Machine where
  | riscv
  | recursionAir
deriving DecidableEq

/-- `FriConfig`: the static scheme parameters handed to `const_fri_config`
(from `inner_fri_config()`). -/
structure FriConfig where
  log_blowup : Nat
  num_queries : Nat
  proof_of_work_bits : Nat

/-- `FriConfigVariable`: the materialized in-circuit commitment-scheme
config. -/
structure FriConfigVariable where
  log_blowup : Nat
  num_queries : Nat
  proof_of_work_bits : Nat
  subgroups : List TwoAdicMultiplicativeCoset
  generators : List F

/-- Modelled from the spec: `Val::two_adic_generator(bits)` lives in the
external `p3_baby_bear` crate, not under `src/`.  Per the spec it is "the
canonical generator of the multiplicative subgroup of order 2^bits".  The
canonical two-adic root of BabyBear is 440564289 = 31^15 mod p (31 being
BabyBear's multiplicative-group generator), of order 2^27; the order-2^bits
generator is its 2^(27-bits)-th power. -/
def twoAdicRoot : F := 440564289

/-- Modelled from the spec (continued): the order-2^bits canonical
generator, as the 2^(27-bits)-th power of the canonical 2^27-th root of
unity. -/
def two_adic_generator (bits : Nat) : F :=
  twoAdicRoot ^ (2 ^ (TWO_ADICITY - bits))

/-- `const_fri_config` (reduce.rs:57-82): materialize the commitment-scheme
config.  The index loop `for i in 0..two_addicity` storing
`generators[i] = two_adic_generator(i)` and
`subgroups[i] = { log_n = i, shift = one }` is embedded as the two mapped
range lists; the three scalar parameters are passed through unchanged. -/
def const_fri_config (config : FriConfig) : FriConfigVariable :=
  { log_blowup := config.log_blowup
    num_queries := config.num_queries
    proof_of_work_bits := config.proof_of_work_bits
    subgroups := (List.range TWO_ADICITY).map fun i =>
      { log_n := i, shift := 1 }
    generators := (List.range TWO_ADICITY).map fun i =>
      two_adic_generator i }

/-- The witness inputs of `build_reduce`, in the order the program reads
them (reduce.rs:104-115).  Flags are stored as the field elements the
circuit compares against zero. -/
structure WitnessInput where
  proofs : List ShardProof
  is_recursive_flags : List F
  sorted_indices : List (List Nat)
  sp1_challenger : DuplexChallenger
  reconstruct_challenger : DuplexChallenger
  prep_sorted_indices : List Nat
  prep_domains : List TwoAdicMultiplicativeCoset
  recursion_prep_sorted_indices : List Nat
  recursion_prep_domains : List TwoAdicMultiplicativeCoset
  sp1_vk : VerifyingKey
  recursion_vk : VerifyingKey

/-- One record of an invocation of the external
`StarkVerifier::verify_shard` primitive: the arguments the program passes. -/
structure VerifyCall where
  vk : VerifyingKey
  machine : Machine
  challenger : DuplexChallenger
  proof : ShardProof
  sorted_indices : List Nat
  prep_sorted_indices : List Nat
  prep_domains : List TwoAdicMultiplicativeCoset

/-- Default shard proof used for the (circuit-unconstrained) out-of-range
`builder.get`. -/
def dfltProof : ShardProof := ⟨⟨fun _ => 0⟩, []⟩

/-- The shard index a base-case proof declares:
`builder.get(&proof.public_values, 32)` (reduce.rs:139), converted felt-to-var
by `felt_to_var` (value-preserving bit decomposition and recomposition). -/
def shardOf (proof : ShardProof) : F :=
  proof.public_values.getD 32 0

/-- The loop items of `builder.range(0, num_proofs)` (reduce.rs:130-135):
for index `i`, the proof, its is-recursive flag and its sorted-indices
metadata, fetched by `builder.get` from the witness arrays. -/
def loopItems (w : WitnessInput) : List (ShardProof × F × List Nat) :=
  (List.range w.proofs.length).map fun i =>
    (w.proofs.getD i dfltProof, w.is_recursive_flags.getD i 0,
      w.sorted_indices.getD i [])

/-- The recursion challenger after setup (reduce.rs:123-128): a fresh
transcript that absorbs the recursion verifying key's commitment digest
element by element. -/
def recursionSetup (w : WitnessInput) : DuplexChallenger :=
  observeDigest newChallenger w.recursion_vk.commitment

/-- The mutable state threaded through the per-proof loop: the reconstructed
base transcript, the trace of verification calls issued so far, and a count
of how many times the reconstruct challenger has been re-initialized (the
`if shard == 1` reset branch, reduce.rs:142-146). -/
structure LoopState where
  reconstruct : DuplexChallenger
  calls : List VerifyCall
  resets : Nat

/-- One iteration of the per-proof loop (reduce.rs:132-203).  Base case
(flag = 0): read the shard index from public value 32; if it equals one,
re-initialize the reconstruct challenger and absorb the base vk commitment;
unconditionally absorb the proof's main commitment; verify with a clone of
the witnessed `sp1_challenger` against the base machine.  Recursive case:
clone the recursion challenger, absorb the proof's main commitment then its
public values in order, and verify against the recursion machine. -/
def reduceStep (w : WitnessInput) (recCh : DuplexChallenger) (s : LoopState)
    (item : ShardProof × F × List Nat) : LoopState :=
  let proof := item.1
  let is_recursive := item.2.1
  let sorted_indices := item.2.2
  if is_recursive = 0 then
    let shard := shardOf proof
    let rc0 := if shard = 1 then
        observeDigest newChallenger w.sp1_vk.commitment
      else s.reconstruct
    let rc1 := observeDigest rc0 proof.commitment.main_commit
    let current_challenger := w.sp1_challenger
    { reconstruct := rc1
      calls := s.calls ++
        [⟨w.sp1_vk, .riscv, current_challenger, proof, sorted_indices,
          w.prep_sorted_indices, w.prep_domains⟩]
      resets := s.resets + (if shard = 1 then 1 else 0) }
  else
    let c0 := recCh
    let c1 := observeDigest c0 proof.commitment.main_commit
    let c2 := observeMany c1 proof.public_values
    { reconstruct := s.reconstruct
      calls := s.calls ++
        [⟨w.recursion_vk, .recursionAir, c2, proof, sorted_indices,
          w.recursion_prep_sorted_indices, w.recursion_prep_domains⟩]
      resets := s.resets }

/-- Modelled from the spec: the 8-field public-output tuple the program is
documented to emit (reduce.rs:205-217 lists it only in a comment; no code
under `src/` emits it). -/
structure PublicOutputTuple where
  committed_values_digest : Fin DIGEST_SIZE → F
  start_pc : F
  next_pc : F
  exit_code : F
  reconstruct_challenger : DuplexChallenger
  pre_reconstruct_challenger : DuplexChallenger
  verify_start_challenger : DuplexChallenger
  recursion_vk : VerifyingKey

/-- The observable behaviour of the compiled reduce program on one witness:
final transcript states, the verification-call trace, the reset count, and
the public output it commits (none: the source only documents the intended
tuple in a comment). -/
structure ReduceResult where
  reconstruct : DuplexChallenger
  pre_reconstruct : DuplexChallenger
  sp1_challenger : DuplexChallenger
  recursion_challenger : DuplexChallenger
  calls : List VerifyCall
  resets : Nat
  public_output : Option PublicOutputTuple

/-- One typed item of the hint/witness stream consumed by the `read` calls
at the start of `build_reduce`. -/
inductive WitnessItem where
  | proofsItem (ps : List ShardProof)
  | flagsItem (fs : List F)
  | sortedIndicesItem (ss : List (List Nat))
  | challengerItem (c : DuplexChallenger)
  | prepSortedItem (l : List Nat)
  | prepDomainsItem (ds : List TwoAdicMultiplicativeCoset)
  | vkItem (vk : VerifyingKey)

/-- The witness-reading phase of `build_reduce` (reduce.rs:104-115): eleven
`read` calls, performed once, at program start, in this fixed order.  A
stream of any other shape is rejected. -/
def readWitness : List WitnessItem → Option WitnessInput
  | [.proofsItem ps, .flagsItem fs, .sortedIndicesItem ss,
     .challengerItem sp1c, .challengerItem rc,
     .prepSortedItem psi, .prepDomainsItem pd,
     .prepSortedItem rpsi, .prepDomainsItem rpd,
     .vkItem svk, .vkItem rvk] =>
    some ⟨ps, fs, ss, sp1c, rc, psi, pd, rpsi, rpd, svk, rvk⟩
  | _ => none

/-- The witness stream serializing a `WitnessInput` in the order
`build_reduce` reads it. -/
def witnessStream (w : WitnessInput) : List WitnessItem :=
  [.proofsItem w.proofs, .flagsItem w.is_recursive_flags,
   .sortedIndicesItem w.sorted_indices,
   .challengerItem w.sp1_challenger, .challengerItem w.reconstruct_challenger,
   .prepSortedItem w.prep_sorted_indices, .prepDomainsItem w.prep_domains,
   .prepSortedItem w.recursion_prep_sorted_indices,
   .prepDomainsItem w.recursion_prep_domains,
   .vkItem w.sp1_vk, .vkItem w.recursion_vk]

/-- `build_reduce` (reduce.rs:95-223), as the witness-semantics of the
program it builds: clone the pre-reconstruction challenger, set up the
recursion challenger from the recursion vk, fold the per-proof loop, and
return the final state.  The source never commits public values (the output
tuple exists only in a comment), so `public_output` is `none`. -/
def build_reduce (w : WitnessInput) : ReduceResult :=
  let recCh := recursionSetup w
  let final := (loopItems w).foldl (reduceStep w recCh)
    { reconstruct := w.reconstruct_challenger, calls := [], resets := 0 }
  { reconstruct := final.reconstruct
    pre_reconstruct := w.reconstruct_challenger
    sp1_challenger := w.sp1_challenger
    recursion_challenger := recCh
    calls := final.calls
    resets := final.resets
    public_output := none }

/-- The reconstruct-challenger projection of one loop iteration: how
`reduceStep` transforms the reconstructed base transcript (it ignores the
rest of the loop state). -/
def rcStep (vk : VerifyingKey) (rc : DuplexChallenger)
    (item : ShardProof × F × List Nat) : DuplexChallenger :=
  if item.2.1 = 0 then
    observeDigest
      (if shardOf item.1 = 1 then observeDigest newChallenger vk.commitment
       else rc)
      item.1.commitment.main_commit
  else rc

/-- How one base-case proof advances the reconstructed base transcript:
reset-and-absorb-vk when it declares shard index one, then absorb its main
commitment digest. -/
def rcProofStep (vk : VerifyingKey) (rc : DuplexChallenger)
    (p : ShardProof) : DuplexChallenger :=
  observeDigest
    (if shardOf p = 1 then observeDigest newChallenger vk.commitment else rc)
    p.commitment.main_commit

/-- The subsequence of base-case proofs (is-recursive flag zero) of a list
of loop items, in order. -/
def baseProofs (items : List (ShardProof × F × List Nat)) : List ShardProof :=
  items.filterMap fun it => if it.2.1 = 0 then some it.1 else none

/-- The base-case proof subsequence of a witness's batch, in submission
order. -/
def baseSeq (w : WitnessInput) : List ShardProof :=
  baseProofs (loopItems w)

/-- The verification call one loop item gives rise to. -/
def callOf (w : WitnessInput) (recCh : DuplexChallenger)
    (item : ShardProof × F × List Nat) : VerifyCall :=
  if item.2.1 = 0 then
    ⟨w.sp1_vk, .riscv, w.sp1_challenger, item.1, item.2.2,
      w.prep_sorted_indices, w.prep_domains⟩
  else
    ⟨w.recursion_vk, .recursionAir,
      observeMany (observeDigest recCh item.1.commitment.main_commit)
        item.1.public_values,
      item.1, item.2.2,
      w.recursion_prep_sorted_indices, w.recursion_prep_domains⟩

/-- The number of loop items that trigger the reset branch: base-case items
declaring shard index one. -/
def resetItemCount (items : List (ShardProof × F × List Nat)) : Nat :=
  items.countP fun it => decide (it.2.1 = 0 ∧ shardOf it.1 = 1)

/-- The number of base-case proofs in a witness's batch that declare shard
index one. -/
def countBaseShard1 (w : WitnessInput) : Nat :=
  resetItemCount (loopItems w)

/-- The proof at loop index `i`. -/
def proofAt (w : WitnessInput) (i : Nat) : ShardProof :=
  w.proofs.getD i dfltProof

/-- The is-recursive flag at loop index `i`. -/
def flagAt (w : WitnessInput) (i : Nat) : F :=
  w.is_recursive_flags.getD i 0

/-- The sorted-indices metadata at loop index `i`. -/
def sortedAt (w : WitnessInput) (i : Nat) : List Nat :=
  w.sorted_indices.getD i []

/-- The main-trace commitment digest of a proof, as the list of its
elements in index order. -/
def mains (p : ShardProof) : List F :=
  List.ofFn p.commitment.main_commit

/-- Default loop item (for out-of-range `getD`). -/
def dfltItem : ShardProof × F × List Nat := (dfltProof, 0, [])

/-- Default verification-call record (for out-of-range `getD`). -/
def dfltCall : VerifyCall := ⟨⟨fun _ => 0⟩, .riscv, [], dfltProof, [], [], []⟩

/-- Concrete base-case proof declaring shard index one. -/
def pBase1 : ShardProof := ⟨⟨fun _ => 2⟩, List.replicate 33 1⟩

/-- Concrete base-case proof declaring shard index two. -/
def pBase2 : ShardProof := ⟨⟨fun _ => 3⟩, List.replicate 32 1 ++ [2]⟩

/-- Concrete recursive-case proof. -/
def pRec : ShardProof := ⟨⟨fun _ => 5⟩, [7, 9]⟩

/-- Another concrete recursive-case proof. -/
def pRec2 : ShardProof := ⟨⟨fun _ => 6⟩, [8]⟩

/-- A concrete mixed batch: two base-case shards (indices one and two) and
one recursive-case proof. -/
def wMix : WitnessInput :=
  { proofs := [pBase1, pBase2, pRec]
    is_recursive_flags := [0, 0, 1]
    sorted_indices := [[0], [1], [2]]
    sp1_challenger := [4]
    reconstruct_challenger := [6]
    prep_sorted_indices := [0]
    prep_domains := [⟨1, 1⟩]
    recursion_prep_sorted_indices := [1]
    recursion_prep_domains := [⟨2, 1⟩]
    sp1_vk := ⟨fun _ => 11⟩
    recursion_vk := ⟨fun _ => 13⟩ }

/-- A concrete all-base batch of one execution: shard one then shard two. -/
def wAllBase : WitnessInput :=
  { wMix with
    proofs := [pBase1, pBase2]
    is_recursive_flags := [0, 0]
    sorted_indices := [[0], [1]] }

/-- A concrete adversarial batch in which two base-case proofs both declare
shard index one. -/
def wTwoResets : WitnessInput :=
  { wMix with
    proofs := [pBase1, pBase1]
    is_recursive_flags := [0, 0]
    sorted_indices := [[0], [0]] }

/-- A batch with two recursive proofs around one base proof. -/
def wPerm1 : WitnessInput :=
  { wMix with
    proofs := [pRec, pBase1, pRec2]
    is_recursive_flags := [1, 0, 1]
    sorted_indices := [[2], [0], [3]] }

/-- The same batch as `wPerm1` with the two recursive proofs permuted. -/
def wPerm2 : WitnessInput :=
  { wMix with
    proofs := [pRec2, pBase1, pRec]
    is_recursive_flags := [1, 0, 1]
    sorted_indices := [[3], [0], [2]] }

/-- Absorbing a list of elements appends them to the absorbed sequence. -/
theorem observeMany_eq_append (c : DuplexChallenger) (xs : List F) :
    observeMany c xs = c ++ xs := by
  induction xs generalizing c with
  | nil => simp [observeMany]
  | cons x xs ih =>
    rw [observeMany, List.foldl_cons]
    have := ih (observe c x)
    rw [observeMany] at this
    rw [this, observe, List.append_assoc]
    rfl

/-- Absorbing a digest appends its elements in index order. -/
theorem observeDigest_eq_append (c : DuplexChallenger) (d : Fin DIGEST_SIZE → F) :
    observeDigest c d = c ++ List.ofFn d := by
  rw [observeDigest, observeMany_eq_append]

/-- The reconstruct-challenger component of the loop fold is the fold of
`rcStep` over the same items. -/
theorem foldl_reduceStep_reconstruct (w : WitnessInput)
    (recCh : DuplexChallenger) (items : List (ShardProof × F × List Nat)) :
    ∀ s : LoopState,
      (items.foldl (reduceStep w recCh) s).reconstruct =
        items.foldl (rcStep w.sp1_vk) s.reconstruct := by
  induction items with
  | nil => intro s; rfl
  | cons it rest ih =>
    intro s
    rw [List.foldl_cons, List.foldl_cons, ih]
    by_cases h : it.2.1 = 0 <;> simp [reduceStep, rcStep, h]

/-- The calls component of the loop fold appends one `callOf` entry per
item, independently of the threaded state. -/
theorem foldl_reduceStep_calls (w : WitnessInput)
    (recCh : DuplexChallenger) (items : List (ShardProof × F × List Nat)) :
    ∀ s : LoopState,
      (items.foldl (reduceStep w recCh) s).calls =
        s.calls ++ items.map (callOf w recCh) := by
  induction items with
  | nil => intro s; simp
  | cons it rest ih =>
    intro s
    rw [List.foldl_cons, ih, List.map_cons]
    by_cases h : it.2.1 = 0 <;>
      simp [reduceStep, callOf, h, List.append_assoc]

/-- The resets counter of the loop fold counts the items that trigger the
reset branch. -/
theorem foldl_reduceStep_resets (w : WitnessInput)
    (recCh : DuplexChallenger) (items : List (ShardProof × F × List Nat)) :
    ∀ s : LoopState,
      (items.foldl (reduceStep w recCh) s).resets =
        s.resets + resetItemCount items := by
  induction items with
  | nil => intro s; simp [resetItemCount]
  | cons it rest ih =>
    intro s
    rw [List.foldl_cons, ih]
    by_cases h : it.2.1 = 0
    · by_cases h1 : shardOf it.1 = 1
      · have e1 : (reduceStep w recCh s it).resets = s.resets + 1 := by
          simp [reduceStep, h, h1]
        have e2 : resetItemCount (it :: rest) = resetItemCount rest + 1 := by
          simp [resetItemCount, List.countP_cons, h, h1]
        rw [e1, e2]
        omega
      · have e1 : (reduceStep w recCh s it).resets = s.resets := by
          simp [reduceStep, h, h1]
        have e2 : resetItemCount (it :: rest) = resetItemCount rest := by
          simp [resetItemCount, List.countP_cons, h, h1]
        rw [e1, e2]
    · have e1 : (reduceStep w recCh s it).resets = s.resets := by
        simp [reduceStep, h]
      have e2 : resetItemCount (it :: rest) = resetItemCount rest := by
        simp [resetItemCount, List.countP_cons, h]
      rw [e1, e2]

/-- Folding `rcStep` over loop items is folding `rcProofStep` over the
base-case proof subsequence: recursive-case items leave the reconstructed
transcript untouched. -/
theorem foldl_rcStep_baseProofs (vk : VerifyingKey)
    (items : List (ShardProof × F × List Nat)) :
    ∀ rc : DuplexChallenger,
      items.foldl (rcStep vk) rc =
        (baseProofs items).foldl (rcProofStep vk) rc := by
  induction items with
  | nil => intro rc; rfl
  | cons it rest ih =>
    intro rc
    rw [List.foldl_cons]
    by_cases h : it.2.1 = 0
    · rw [ih]
      have hb : baseProofs (it :: rest) = it.1 :: baseProofs rest := by
        simp [baseProofs, h]
      rw [hb, List.foldl_cons]
      congr 1
      simp [rcStep, rcProofStep, h]
    · rw [ih]
      have hb : baseProofs (it :: rest) = baseProofs rest := by
        simp [baseProofs, h]
      rw [hb]
      congr 1
      simp [rcStep, h]

/-- If no proof in a list declares shard index one, folding `rcProofStep`
just appends each proof's commitment digest in order. -/
theorem foldl_rcProofStep_no_reset (vk : VerifyingKey) (ps : List ShardProof)
    (hps : ∀ p ∈ ps, shardOf p ≠ 1) :
    ∀ rc : DuplexChallenger,
      ps.foldl (rcProofStep vk) rc = rc ++ (ps.map mains).flatten := by
  induction ps with
  | nil => intro rc; simp
  | cons p rest ih =>
    intro rc
    have hp : shardOf p ≠ 1 := hps p (List.mem_cons_self p rest)
    rw [List.foldl_cons]
    rw [ih (fun q hq => hps q (List.mem_cons_of_mem p hq))]
    rw [rcProofStep, if_neg hp, observeDigest_eq_append]
    simp [mains, List.append_assoc]

/-- Reading every index of a list with `getD` reproduces the list. -/
theorem range_map_getD {α : Type} (l : List α) (d : α) :
    (List.range l.length).map (fun i => l.getD i d) = l := by
  induction l with
  | nil => rfl
  | cons a t ih =>
    rw [List.length_cons, List.range_succ_eq_map, List.map_cons, List.map_map]
    have : ((fun i => (a :: t).getD i d) ∘ Nat.succ) =
        fun i => t.getD i d := by
      funext i
      simp [List.getD_cons_succ]
    rw [this, ih]
    rfl

/-- The final reconstructed base transcript of `build_reduce` is the fold of
the per-base-proof step over the base-case subsequence, started from the
witnessed initial reconstruct state. -/
theorem build_reduce_reconstruct_eq (w : WitnessInput) :
    (build_reduce w).reconstruct =
      (baseSeq w).foldl (rcProofStep w.sp1_vk) w.reconstruct_challenger := by
  show ((loopItems w).foldl (reduceStep w (recursionSetup w))
      { reconstruct := w.reconstruct_challenger, calls := [],
        resets := 0 }).reconstruct = _
  rw [foldl_reduceStep_reconstruct, foldl_rcStep_baseProofs]
  rfl

/-- The verification-call trace of `build_reduce` is one `callOf` entry per
loop item, in loop order. -/
theorem build_reduce_calls_eq (w : WitnessInput) :
    (build_reduce w).calls =
      (loopItems w).map (callOf w (recursionSetup w)) := by
  show ((loopItems w).foldl (reduceStep w (recursionSetup w))
      { reconstruct := w.reconstruct_challenger, calls := [],
        resets := 0 }).calls = _
  rw [foldl_reduceStep_calls]
  rfl

/-- The reset counter of `build_reduce` counts exactly the base-case proofs
declaring shard index one. -/
theorem build_reduce_resets_eq (w : WitnessInput) :
    (build_reduce w).resets = countBaseShard1 w := by
  show ((loopItems w).foldl (reduceStep w (recursionSetup w))
      { reconstruct := w.reconstruct_challenger, calls := [],
        resets := 0 }).resets = _
  rw [foldl_reduceStep_resets]
  simp [countBaseShard1]

/-- The number of loop items equals the number of proofs in the batch. -/
theorem loopItems_length (w : WitnessInput) :
    (loopItems w).length = w.proofs.length := by
  simp [loopItems]

/-- The loop item at index `i` is the triple of the proof, flag and metadata
at that index. -/
theorem loopItems_getD (w : WitnessInput) (i : Nat)
    (h : i < w.proofs.length) :
    (loopItems w).getD i dfltItem = (proofAt w i, flagAt w i, sortedAt w i) := by
  have hlen : i < (loopItems w).length := by rw [loopItems_length]; exact h
  rw [List.getD_eq_getElem (loopItems w) dfltItem hlen]
  simp [loopItems, proofAt, flagAt, sortedAt]

/-- If every item is base-case, the base-proof subsequence is the whole
proof list. -/
theorem baseSeq_of_all_base (w : WitnessInput)
    (hflags : ∀ i, i < w.proofs.length → flagAt w i = 0) :
    baseSeq w = w.proofs := by
  rw [baseSeq, baseProofs, loopItems]
  rw [List.filterMap_map]
  have : ∀ i ∈ List.range w.proofs.length,
      ((fun it : ShardProof × F × List Nat =>
        if it.2.1 = 0 then some it.1 else none) ∘ fun i =>
          (w.proofs.getD i dfltProof, w.is_recursive_flags.getD i 0,
            w.sorted_indices.getD i [])) i =
        some (w.proofs.getD i dfltProof) := by
    intro i hi
    have h0 := hflags i (List.mem_range.mp hi)
    simp only [flagAt, List.getD_eq_getElem?_getD] at h0
    simp [h0]
  rw [List.filterMap_congr this]
  rw [List.filterMap_eq_map_iff_forall_eq_some.mpr (fun _ _ => rfl)]
  exact range_map_getD w.proofs dfltProof

/-- Squaring step: from the value of `x ^ 2^k`, compute `x ^ 2^(k+1)`. -/
theorem sq_pow_step (x c : F) (k : Nat) (h : x ^ (2 ^ k : Nat) = c) :
    x ^ (2 ^ (k + 1) : Nat) = c * c := by
  rw [show (2 : Nat) ^ (k + 1) = 2 ^ k * 2 from pow_succ 2 k, pow_mul, h,
    pow_two]

/-- The canonical BabyBear two-adic root has multiplicative order 2^27,
established by a repeated-squaring chain. -/
theorem orderOf_twoAdicRoot : orderOf twoAdicRoot = 2 ^ 27 := by
  have h0 : twoAdicRoot ^ ((2 : Nat) ^ 0) = 440564289 := by
    rw [show (2 : Nat) ^ 0 = 1 from rfl, pow_one]
    rfl
  have h1 : twoAdicRoot ^ ((2 : Nat) ^ 1) = 975630072 := by
    rw [sq_pow_step _ _ 0 h0]
    rfl
  have h2 : twoAdicRoot ^ ((2 : Nat) ^ 2) = 1149491290 := by
    rw [sq_pow_step _ _ 1 h1]
    rfl
  have h3 : twoAdicRoot ^ ((2 : Nat) ^ 3) = 1003846038 := by
    rw [sq_pow_step _ _ 2 h2]
    rfl
  have h4 : twoAdicRoot ^ ((2 : Nat) ^ 4) = 1267047229 := by
    rw [sq_pow_step _ _ 3 h3]
    rfl
  have h5 : twoAdicRoot ^ ((2 : Nat) ^ 5) = 570250684 := by
    rw [sq_pow_step _ _ 4 h4]
    rfl
  have h6 : twoAdicRoot ^ ((2 : Nat) ^ 6) = 414040701 := by
    rw [sq_pow_step _ _ 5 h5]
    rfl
  have h7 : twoAdicRoot ^ ((2 : Nat) ^ 7) = 195061667 := by
    rw [sq_pow_step _ _ 6 h6]
    rfl
  have h8 : twoAdicRoot ^ ((2 : Nat) ^ 8) = 1049899240 := by
    rw [sq_pow_step _ _ 7 h7]
    rfl
  have h9 : twoAdicRoot ^ ((2 : Nat) ^ 9) = 1559589183 := by
    rw [sq_pow_step _ _ 8 h8]
    rfl
  have h10 : twoAdicRoot ^ ((2 : Nat) ^ 10) = 1286330022 := by
    rw [sq_pow_step _ _ 9 h9]
    rfl
  have h11 : twoAdicRoot ^ ((2 : Nat) ^ 11) = 1421947380 := by
    rw [sq_pow_step _ _ 10 h10]
    rfl
  have h12 : twoAdicRoot ^ ((2 : Nat) ^ 12) = 2009781145 := by
    rw [sq_pow_step _ _ 11 h11]
    rfl
  have h13 : twoAdicRoot ^ ((2 : Nat) ^ 13) = 1657000625 := by
    rw [sq_pow_step _ _ 12 h12]
    rfl
  have h14 : twoAdicRoot ^ ((2 : Nat) ^ 14) = 298008106 := by
    rw [sq_pow_step _ _ 13 h13]
    rfl
  have h15 : twoAdicRoot ^ ((2 : Nat) ^ 15) = 1282623253 := by
    rw [sq_pow_step _ _ 14 h14]
    rfl
  have h16 : twoAdicRoot ^ ((2 : Nat) ^ 16) = 1340477990 := by
    rw [sq_pow_step _ _ 15 h15]
    rfl
  have h17 : twoAdicRoot ^ ((2 : Nat) ^ 17) = 341742893 := by
    rw [sq_pow_step _ _ 16 h16]
    rfl
  have h18 : twoAdicRoot ^ ((2 : Nat) ^ 18) = 1753498361 := by
    rw [sq_pow_step _ _ 17 h17]
    rfl
  have h19 : twoAdicRoot ^ ((2 : Nat) ^ 19) = 1732600167 := by
    rw [sq_pow_step _ _ 18 h18]
    rfl
  have h20 : twoAdicRoot ^ ((2 : Nat) ^ 20) = 397765732 := by
    rw [sq_pow_step _ _ 19 h19]
    rfl
  have h21 : twoAdicRoot ^ ((2 : Nat) ^ 21) = 1721589904 := by
    rw [sq_pow_step _ _ 20 h20]
    rfl
  have h22 : twoAdicRoot ^ ((2 : Nat) ^ 22) = 760005850 := by
    rw [sq_pow_step _ _ 21 h21]
    rfl
  have h23 : twoAdicRoot ^ ((2 : Nat) ^ 23) = 196396260 := by
    rw [sq_pow_step _ _ 22 h22]
    rfl
  have h24 : twoAdicRoot ^ ((2 : Nat) ^ 24) = 1592366214 := by
    rw [sq_pow_step _ _ 23 h23]
    rfl
  have h25 : twoAdicRoot ^ ((2 : Nat) ^ 25) = 1728404513 := by
    rw [sq_pow_step _ _ 24 h24]
    rfl
  have h26 : twoAdicRoot ^ ((2 : Nat) ^ 26) = 2013265920 := by
    rw [sq_pow_step _ _ 25 h25]
    rfl
  have hfin : twoAdicRoot ^ ((2 : Nat) ^ 27) = 1 := by
    rw [sq_pow_step _ _ 26 h26]
    rfl
  have hnot : ¬ twoAdicRoot ^ ((2 : Nat) ^ 26) = 1 := by
    rw [h26]
    decide
  exact orderOf_eq_prime_pow hnot hfin

/-- For every exponent `i` below the two-adicity bound, the modelled
two-adic generator generates the multiplicative subgroup of order `2^i`. -/
theorem orderOf_two_adic_generator (i : Nat) (h : i < TWO_ADICITY) :
    orderOf (two_adic_generator i) = 2 ^ i := by
  have h27 : i < 27 := h
  rw [two_adic_generator, show TWO_ADICITY = 27 from rfl]
  have hne : (2 : Nat) ^ (27 - i) ≠ 0 := (Nat.pow_pos (by norm_num)).ne'
  rw [orderOf_pow' _ hne, orderOf_twoAdicRoot]
  rw [Nat.gcd_eq_right (pow_dvd_pow 2 (by omega))]
  rw [Nat.pow_div (by omega) (by norm_num)]
  congr 1
  omega


/-- C6: for every exponent `i` with `0 ≤ i < TWO_ADICITY`, `const_fri_config`
stores at index `i` of the generators array the canonical generator of the
multiplicative subgroup of order `2^i` (an element of multiplicative order
`2^i`), and at index `i` of the subgroups array a domain descriptor with
`log_n = i` and multiplicative-identity shift; the log-blowup factor, query
count and proof-of-work bit count are carried over unchanged.  The
construction is a total function of its static inputs (deterministic, no
failure path). -/
theorem const_fri_config_correct (config : FriConfig) (i : Nat)
    (h : i < TWO_ADICITY) :
    (const_fri_config config).generators.getD i 0 = two_adic_generator i ∧
    orderOf ((const_fri_config config).generators.getD i 0) = 2 ^ i ∧
    (const_fri_config config).subgroups.getD i ⟨0, 0⟩ =
      ⟨i, 1⟩ ∧
    (const_fri_config config).log_blowup = config.log_blowup ∧
    (const_fri_config config).num_queries = config.num_queries ∧
    (const_fri_config config).proof_of_work_bits = config.proof_of_work_bits := by
  have hgen : (const_fri_config config).generators.getD i 0 =
      two_adic_generator i := by
    show (((List.range TWO_ADICITY).map two_adic_generator).getD i 0) = _
    rw [List.getD_eq_getElem _ _ (by simpa using h), List.getElem_map,
      List.getElem_range]
  refine ⟨hgen, ?_, ?_, rfl, rfl, rfl⟩
  · rw [hgen]
    exact orderOf_two_adic_generator i h
  · show (((List.range TWO_ADICITY).map fun j =>
        (⟨j, 1⟩ : TwoAdicMultiplicativeCoset)).getD i ⟨0, 0⟩) = _
    rw [List.getD_eq_getElem _ _ (by simpa using h), List.getElem_map,
      List.getElem_range]

/-- Witness for `const_fri_config_correct` at the concrete
`inner_fri_config()` parameters and exponent 3. -/
theorem const_fri_config_correct_witness :
    3 < TWO_ADICITY ∧
    ((const_fri_config ⟨1, 100, 16⟩).generators.getD 3 0 =
        two_adic_generator 3 ∧
      orderOf ((const_fri_config ⟨1, 100, 16⟩).generators.getD 3 0) = 2 ^ 3 ∧
      (const_fri_config ⟨1, 100, 16⟩).subgroups.getD 3 ⟨0, 0⟩ = ⟨3, 1⟩ ∧
      (const_fri_config ⟨1, 100, 16⟩).log_blowup = 1 ∧
      (const_fri_config ⟨1, 100, 16⟩).num_queries = 100 ∧
      (const_fri_config ⟨1, 100, 16⟩).proof_of_work_bits = 16) :=
  ⟨by decide, const_fri_config_correct ⟨1, 100, 16⟩ 3 (by decide)⟩

/-- C2 (code evaluation): the program under `src/` commits no public-output
tuple at all — the 8-field statement of the spec exists only in a source
comment (reduce.rs:205-217), so the emitted public output of the modelled
program is `none` for every witness. -/
theorem build_reduce_no_public_output (w : WitnessInput) :
    (build_reduce w).public_output = none := rfl

/-- C9: program building is deterministic — the embedding of `build_reduce`
is a pure function of the witness input, so bit-identical witness inputs
yield identical results.  (The only impurity in the source is a wall-clock
timing print that does not feed into the compiled program.) -/
theorem build_reduce_deterministic (w w' : WitnessInput) (h : w = w') :
    build_reduce w = build_reduce w' := by rw [h]

/-- Witness for `build_reduce_deterministic` at a concrete batch. -/
theorem build_reduce_deterministic_witness :
    build_reduce wMix = build_reduce wMix :=
  build_reduce_deterministic wMix wMix rfl

/-- C8: the witness stream is consumed exactly once, at program start, and
parses successfully precisely when it lists, in this fixed order: the shard
proofs, the base-vs-recursive flags, the per-proof column-order metadata,
the witnessed base transcript, the initial reconstructed transcript, the
base-machine preprocessed column-order metadata then its domain list, the
recursion-machine preprocessed column-order metadata then its domain list,
the base verifying key, and the recursion verifying key — yielding exactly
the `WitnessInput` record `build_reduce` consumes. -/
theorem readWitness_order (s : List WitnessItem) (w : WitnessInput) :
    readWitness s = some w ↔ s = witnessStream w := by
  constructor
  · intro h
    unfold readWitness at h
    split at h
    · rw [Option.some_inj] at h
      subst h
      rfl
    · exact absurd h (by simp)
  · intro h
    subst h
    rfl

/-- C5: every base-case proof (is-recursive flag zero) is verified with a
fork of the *witnessed* base transcript (`sp1_challenger`, read from the
witness input, with nothing further absorbed before the call), the base
verifying key, the base machine description, the proof, its general
column-ordering metadata, and the base machine's preprocessed
column-ordering metadata and domain list; and the witnessed base transcript
itself is left unmutated by the program. -/
theorem base_case_verify_call (w : WitnessInput) (i : Nat)
    (h : i < w.proofs.length) (hflag : flagAt w i = 0) :
    (build_reduce w).calls.getD i dfltCall =
      ⟨w.sp1_vk, .riscv, w.sp1_challenger, proofAt w i, sortedAt w i,
        w.prep_sorted_indices, w.prep_domains⟩ ∧
    (build_reduce w).sp1_challenger = w.sp1_challenger := by
  refine ⟨?_, rfl⟩
  rw [build_reduce_calls_eq]
  rw [List.getD_eq_getElem _ _ (by simpa [loopItems_length] using h),
    List.getElem_map]
  rw [← List.getD_eq_getElem (loopItems w) dfltItem
    (by simpa [loopItems_length] using h)]
  rw [loopItems_getD w i h]
  simp [callOf, hflag]

/-- Witness for `base_case_verify_call`: the first proof of the concrete
mixed batch. -/
theorem base_case_verify_call_witness :
    0 < wMix.proofs.length ∧ flagAt wMix 0 = 0 ∧
    ((build_reduce wMix).calls.getD 0 dfltCall =
        ⟨wMix.sp1_vk, .riscv, wMix.sp1_challenger, proofAt wMix 0,
          sortedAt wMix 0, wMix.prep_sorted_indices, wMix.prep_domains⟩ ∧
      (build_reduce wMix).sp1_challenger = wMix.sp1_challenger) :=
  ⟨by decide, by decide, base_case_verify_call wMix 0 (by decide) (by decide)⟩

/-- C4: every recursive-case proof (is-recursive flag nonzero) is verified
with a fork of the canonical recursion transcript into which the program
has absorbed the proof's main-trace commitment digest (elements in index
order) and then every element of the proof's public-values vector in index
order, together with the recursion verifying key, the recursion machine
description, the proof, its general column-ordering metadata, and the
recursion machine's preprocessed column-ordering metadata and domain
list. -/
theorem recursive_case_verify_call (w : WitnessInput) (i : Nat)
    (h : i < w.proofs.length) (hflag : flagAt w i ≠ 0) :
    (build_reduce w).calls.getD i dfltCall =
      ⟨w.recursion_vk, .recursionAir,
        observeMany (observeDigest (recursionSetup w)
          (proofAt w i).commitment.main_commit)
          (proofAt w i).public_values,
        proofAt w i, sortedAt w i,
        w.recursion_prep_sorted_indices, w.recursion_prep_domains⟩ := by
  rw [build_reduce_calls_eq]
  rw [List.getD_eq_getElem _ _ (by simpa [loopItems_length] using h),
    List.getElem_map]
  rw [← List.getD_eq_getElem (loopItems w) dfltItem
    (by simpa [loopItems_length] using h)]
  rw [loopItems_getD w i h]
  simp [callOf, hflag]

/-- Witness for `recursive_case_verify_call`: the third proof of the
concrete mixed batch. -/
theorem recursive_case_verify_call_witness :
    2 < wMix.proofs.length ∧ flagAt wMix 2 ≠ 0 ∧
    (build_reduce wMix).calls.getD 2 dfltCall =
      ⟨wMix.recursion_vk, .recursionAir,
        observeMany (observeDigest (recursionSetup wMix)
          (proofAt wMix 2).commitment.main_commit)
          (proofAt wMix 2).public_values,
        proofAt wMix 2, sortedAt wMix 2,
        wMix.recursion_prep_sorted_indices, wMix.recursion_prep_domains⟩ :=
  ⟨by decide, by decide, recursive_case_verify_call wMix 2 (by decide) (by decide)⟩

/-- C10: the canonical recursion transcript is mutated only during setup —
after the loop it still equals its post-setup state (the fresh sponge that
absorbed the recursion vk commitment), and every recursive-case proof's
verification fork is taken from that same post-setup state: the fork handed
to the call depends only on the recursion vk and the proof itself, not on
the proof's position or on the other proofs of the batch, so recursive-case
proofs are not chained into one accumulating transcript. -/
theorem recursion_transcript_immutable (w : WitnessInput) :
    (build_reduce w).recursion_challenger = recursionSetup w ∧
    ∀ i, i < w.proofs.length → flagAt w i ≠ 0 →
      ((build_reduce w).calls.getD i dfltCall).challenger =
        observeMany (observeDigest (recursionSetup w)
          (proofAt w i).commitment.main_commit)
          (proofAt w i).public_values := by
  refine ⟨rfl, fun i h hflag => ?_⟩
  rw [build_reduce_calls_eq]
  rw [List.getD_eq_getElem _ _ (by simpa [loopItems_length] using h),
    List.getElem_map]
  rw [← List.getD_eq_getElem (loopItems w) dfltItem
    (by simpa [loopItems_length] using h)]
  rw [loopItems_getD w i h]
  simp [callOf, hflag]

/-- Witness for `recursion_transcript_immutable`: the concrete mixed batch,
instantiated at its recursive proof. -/
theorem recursion_transcript_immutable_witness :
    (build_reduce wMix).recursion_challenger = recursionSetup wMix ∧
    (2 < wMix.proofs.length ∧ flagAt wMix 2 ≠ 0 ∧
      ((build_reduce wMix).calls.getD 2 dfltCall).challenger =
        observeMany (observeDigest (recursionSetup wMix)
          (proofAt wMix 2).commitment.main_commit)
          (proofAt wMix 2).public_values) :=
  ⟨(recursion_transcript_immutable wMix).1,
    by decide, by decide,
    (recursion_transcript_immutable wMix).2 2 (by decide) (by decide)⟩

/-- C7: recursive-case proofs never change the reconstructed base
transcript — its final value is a function only of the base verifying key,
the initial reconstruct state, and the subsequence of base-case proofs in
their relative order.  In particular, permuting recursive-case proofs among
themselves while holding the base-case order fixed leaves the final base
transcript unchanged. -/
theorem base_transcript_frame (w1 w2 : WitnessInput)
    (hvk : w1.sp1_vk = w2.sp1_vk)
    (hrc : w1.reconstruct_challenger = w2.reconstruct_challenger)
    (hbase : baseSeq w1 = baseSeq w2) :
    (build_reduce w1).reconstruct = (build_reduce w2).reconstruct := by
  rw [build_reduce_reconstruct_eq, build_reduce_reconstruct_eq, hvk, hrc,
    hbase]

/-- Witness for `base_transcript_frame`: two concrete batches that differ
only by permuting their two recursive-case proofs around the single
base-case proof. -/
theorem base_transcript_frame_witness :
    wPerm1.sp1_vk = wPerm2.sp1_vk ∧
    wPerm1.reconstruct_challenger = wPerm2.reconstruct_challenger ∧
    baseSeq wPerm1 = baseSeq wPerm2 ∧
    (build_reduce wPerm1).reconstruct = (build_reduce wPerm2).reconstruct :=
  ⟨rfl, rfl, by rfl,
    base_transcript_frame wPerm1 wPerm2 rfl rfl (by rfl)⟩

/-- C1: for a batch consisting exclusively of base-case proofs of one
execution — the first proof declaring shard index one and no later proof
declaring shard index one — the reconstructed base transcript after the
loop equals the transcript obtained by starting from a fresh sponge,
absorbing the base verifying key's commitment digest, and then absorbing
every proof's main-trace commitment digest (elements in index order) in
submission order. -/
theorem base_batch_reconstruct (w : WitnessInput)
    (hne : w.proofs ≠ [])
    (hflags : ∀ i, i < w.proofs.length → flagAt w i = 0)
    (hfirst : shardOf (proofAt w 0) = 1)
    (hrest : ∀ i, 0 < i → i < w.proofs.length → shardOf (proofAt w i) ≠ 1) :
    (build_reduce w).reconstruct =
      observeMany newChallenger
        (List.ofFn w.sp1_vk.commitment ++ (w.proofs.map mains).flatten) := by
  rw [build_reduce_reconstruct_eq, baseSeq_of_all_base w hflags]
  obtain ⟨p0, rest, hps⟩ : ∃ p0 rest, w.proofs = p0 :: rest := by
    cases hw : w.proofs with
    | nil => exact absurd hw hne
    | cons a t => exact ⟨a, t, rfl⟩
  have hp0 : shardOf p0 = 1 := by
    have h1 := hfirst
    rw [proofAt, hps] at h1
    exact h1
  have hrest' : ∀ p ∈ rest, shardOf p ≠ 1 := by
    intro p hp
    obtain ⟨j, hj, hget⟩ := List.mem_iff_getElem.mp hp
    have h2 := hrest (j + 1) (Nat.succ_pos j)
      (by rw [hps]; simpa using Nat.succ_lt_succ hj)
    rw [proofAt, hps, List.getD_cons_succ,
      List.getD_eq_getElem _ _ hj, hget] at h2
    exact h2
  rw [hps, List.foldl_cons,
    show rcProofStep w.sp1_vk w.reconstruct_challenger p0 =
      observeDigest (observeDigest newChallenger w.sp1_vk.commitment)
        p0.commitment.main_commit from by rw [rcProofStep, if_pos hp0],
    foldl_rcProofStep_no_reset w.sp1_vk rest hrest']
  simp [observeDigest_eq_append, observeMany_eq_append, newChallenger,
    mains, List.append_assoc]

/-- Witness for `base_batch_reconstruct`: the concrete all-base batch with
shard indices one and two. -/
theorem base_batch_reconstruct_witness :
    wAllBase.proofs ≠ [] ∧
    (∀ i, i < wAllBase.proofs.length → flagAt wAllBase i = 0) ∧
    shardOf (proofAt wAllBase 0) = 1 ∧
    (∀ i, 0 < i → i < wAllBase.proofs.length →
      shardOf (proofAt wAllBase i) ≠ 1) ∧
    (build_reduce wAllBase).reconstruct =
      observeMany newChallenger
        (List.ofFn wAllBase.sp1_vk.commitment ++
          (wAllBase.proofs.map mains).flatten) := by
  refine ⟨by simp [wAllBase, wMix], ?_, by decide, ?_, ?_⟩
  · intro i hi
    have h2 : i < 2 := hi
    interval_cases i <;> decide
  · intro i hi hlt
    have h2 : i < 2 := hlt
    interval_cases i
    decide
  · exact base_batch_reconstruct wAllBase (by simp [wAllBase, wMix])
      (fun i hi => by
        have h2 : i < 2 := hi
        interval_cases i <;> decide)
      (by decide)
      (fun i hi hlt => by
        have h2 : i < 2 := hlt
        interval_cases i
        decide)

/-- C3 counterexample: in the concrete batch `wTwoResets`, whose two
base-case proofs both declare shard index one, the reconstructed base
transcript is re-initialized twice — the verifying key's commitment is
absorbed again by a later base-case proof — so the claim that within one
aggregation batch the transcript is re-initialized exactly once is false as
stated. -/
theorem reset_not_always_once : (build_reduce wTwoResets).resets ≠ 1 := by
  have h2 : (build_reduce wTwoResets).resets = 2 := by
    rw [build_reduce_resets_eq]
    decide
  omega

/-- C3 (amended): the reconstructed base transcript is re-initialized once
per base-case proof declaring shard index one (re-initialization happens
only at such proofs, and each of them triggers it); whenever the batch
contains exactly one base-case proof declaring shard index one, the
re-initialization therefore happens exactly once, and — since the base
verifying key commitment is absorbed only inside the reset branch — the key
is never re-absorbed by a later base-case proof.  At each reset the prior
accumulated state is discarded and only the verifying key's commitment is
absorbed before that proof's commitment data. -/
theorem reset_exactly_once_amended (w : WitnessInput) :
    (build_reduce w).resets = countBaseShard1 w ∧
    (countBaseShard1 w = 1 → (build_reduce w).resets = 1) ∧
    ∀ (rc : DuplexChallenger) (item : ShardProof × F × List Nat),
      item.2.1 = 0 → shardOf item.1 = 1 →
      rcStep w.sp1_vk rc item =
        observeDigest (observeDigest newChallenger w.sp1_vk.commitment)
          item.1.commitment.main_commit := by
  refine ⟨build_reduce_resets_eq w, ?_, ?_⟩
  · intro h1
    rw [build_reduce_resets_eq]
    exact h1
  · intro rc item hflag hshard
    simp [rcStep, hflag, hshard]

/-- Witness for `reset_exactly_once_amended`: the concrete all-base batch
with one shard-one proof resets exactly once. -/
theorem reset_exactly_once_amended_witness :
    countBaseShard1 wAllBase = 1 ∧ (build_reduce wAllBase).resets = 1 :=
  ⟨by decide, (reset_exactly_once_amended wAllBase).2.1 (by decide)⟩
